import Mathlib

/-!
Shallow embedding of the ChildActivityMonitor worker
(src/ChildActivityMonitor/Worker.cs).

Time is modelled as a rational number of seconds.  DateTime.MinValue is
modelled as the rational 0, and real sampling instants are assumed to be
positive where that matters.  The C# cast (int)duration on a double
truncates toward zero, which is modelled by csharpIntCast.  Fields that
the shutdown flush omits from its JSON payload are modelled as Option
fields of Session, with none meaning the field is absent from the
serialized body.  OS and network effects (the Win32 window queries and
the HTTP POST) are modelled as explicit inputs.
-/

/-- Model of DateTime.MinValue on the rational time line. -/
def dateTimeMinValue : Rat := 0

/-- The C# cast (int)d on a double truncates toward zero: floor for
nonnegative values, ceiling for negative ones. -/
def csharpIntCast (q : Rat) : Int := if 0 ≤ q then ⌊q⌋ else ⌈q⌉

/-- string.IsNullOrWhiteSpace: true when every character is whitespace
(in particular for the empty string; null is not modelled). -/
def isNullOrWhiteSpace (s : String) : Bool := s.toList.all Char.isWhitespace

/-- string.Trim modelled over the character list: leading and trailing
whitespace characters are removed. -/
def trimString (s : String) : String :=
  String.mk
    (((s.toList.dropWhile Char.isWhitespace).reverse.dropWhile
      Char.isWhitespace).reverse)

/-- Lowercasing modelled over the character list, for the
case-insensitive ignore-list membership test. -/
def toLowerString (s : String) : String :=
  String.mk (s.toList.map Char.toLower)

/-- IgnoredProcesses from Worker.cs.  The entries are stored lowercase
and membership is case-insensitive (StringComparer.OrdinalIgnoreCase). -/
def ignoredProcesses : List String :=
  ["explorer", "dllhost", "audiodg", "sihost", "taskhostw", "svchost",
   "runtimebroker", "searchapp", "ctfmon", "conhost", "fontdrvhost"]

/-- Case-insensitive membership in IgnoredProcesses. -/
def isIgnoredProcess (name : String) : Bool :=
  ignoredProcesses.contains (toLowerString name)

/-- Ambient machine data read by the worker when it builds a log entry
(Environment.MachineName, Environment.UserName) together with the
GetExecutablePath helper, whose result depends only on the process
name it is given. -/
structure Env where
  machineName : String
  userName : String
  executablePathOf : String → String

/-- One JSON log entry POSTed to the dashboard.  The shutdown flush
builds an anonymous object with fewer fields than the other two call
sites; a field that is absent from the serialized body is modelled as
none. -/
structure Session where
  timestamp : Rat
  localTimestamp : Option Rat
  machineName : Option String
  userName : Option String
  appName : String
  windowTitle : String
  durationSeconds : Int
  executablePath : Option String
  screenTime : Bool
deriving DecidableEq

/-- The three fields of the focused-time tracking state
(_currentProcessName, _currentWindowTitle, _sessionStartTime). -/
structure FocusState where
  currentProcessName : String
  currentWindowTitle : String
  sessionStartTime : Rat
deriving DecidableEq

/-- The state at worker start and after EndCurrentSession resets it. -/
def initialFocusState : FocusState :=
  { currentProcessName := "", currentWindowTitle := "",
    sessionStartTime := dateTimeMinValue }

/-- The log entry built inside EndCurrentSession (all nine fields
present, screenTime = false). -/
def focusedSession (env : Env) (now utcNow : Rat) (st : FocusState)
    (duration : Rat) : Session :=
  { timestamp := utcNow
    localTimestamp := some now
    machineName := some env.machineName
    userName := some env.userName
    appName := st.currentProcessName
    windowTitle := st.currentWindowTitle
    durationSeconds := csharpIntCast duration
    executablePath := some (env.executablePathOf st.currentProcessName)
    screenTime := false }

/-- EndCurrentSession: early return when the start time is the
MinValue sentinel; otherwise emit when duration is at least one second
and reset the three state fields. -/
def endCurrentSession (env : Env) (now utcNow : Rat) (st : FocusState) :
    FocusState × Option Session :=
  if st.sessionStartTime = dateTimeMinValue then (st, none)
  else
    (initialFocusState,
      if 1 ≤ now - st.sessionStartTime then
        some (focusedSession env now utcNow st (now - st.sessionStartTime))
      else none)

/-- One iteration of the focused-time loop body applied to the sampled
(title, processName) pair.  EndCurrentSession resets the state fields
and the three assignments that follow it overwrite them, so the net
state on the changed branch is the new identity with start time now. -/
def focusTick (env : Env) (now utcNow : Rat) (title processName : String)
    (st : FocusState) : FocusState × Option Session :=
  if isNullOrWhiteSpace title = false ∧ isNullOrWhiteSpace processName = false then
    if processName ≠ st.currentProcessName ∨ title ≠ st.currentWindowTitle then
      ({ currentProcessName := processName, currentWindowTitle := title,
         sessionStartTime := now },
       (endCurrentSession env now utcNow st).2)
    else (st, none)
  else (st, none)

/-- What the OS reports about the foreground window on one sample:
whether GetForegroundWindow returned zero, the raw window text, the
name of the owning process the window handle refers to, and whether
Process.GetProcessById succeeds in resolving it. -/
structure ForegroundInfo where
  hwndIsZero : Bool
  rawTitle : String
  ownerProcessName : String
  ownerResolvable : Bool
deriving DecidableEq

/-- GetActiveWindowInfo: empty pair when there is no foreground window
or the trimmed title is empty; on a resolution failure the catch block
substitutes the identifier unknown; an ignored resolved process is
reported as an empty app identifier. -/
def getActiveWindowInfo (fg : ForegroundInfo) : String × String :=
  if fg.hwndIsZero then ("", "")
  else
    let title := trimString fg.rawTitle
    if title = "" then ("", "")
    else if fg.ownerResolvable then
      (title, if isIgnoredProcess fg.ownerProcessName then "" else fg.ownerProcessName)
    else (title, "unknown")

/-- One sampling instant of the focused-time loop: the local and UTC
clocks plus the pair produced by GetActiveWindowInfo. -/
structure FocusSample where
  now : Rat
  utcNow : Rat
  title : String
  processName : String

/-- The focused-time loop run over a list of samples, collecting every
dispatched session in order. -/
def runFocus (env : Env) : List FocusSample → FocusState → FocusState × List Session
  | [], st => (st, [])
  | smp :: rest, st =>
    let step := focusTick env smp.now smp.utcNow smp.title smp.processName st
    let tail := runFocus env rest step.1
    (tail.1, step.2.toList ++ tail.2)

/-- The guard of the focused-time loop body: both sampled strings are
non-blank. -/
abbrev validSample (title processName : String) : Prop :=
  isNullOrWhiteSpace title = false ∧ isNullOrWhiteSpace processName = false

/-- The sampled pair differs from the pair stored in the state. -/
abbrev changedPair (st : FocusState) (title processName : String) : Prop :=
  processName ≠ st.currentProcessName ∨ title ≠ st.currentWindowTitle

/-- A sample on which the loop body leaves the state alone: a blank
title, a blank process name, or an unchanged pair. -/
def noopSample (st : FocusState) (smp : FocusSample) : Prop :=
  isNullOrWhiteSpace smp.title = true ∨ isNullOrWhiteSpace smp.processName = true ∨
    (smp.processName = st.currentProcessName ∧ smp.title = st.currentWindowTitle)

/-- The focused-state sentinel invariant: the start time is
DateTime.MinValue exactly when both identity fields are empty. -/
def focusInv (st : FocusState) : Prop :=
  st.sessionStartTime = dateTimeMinValue ↔
    (st.currentProcessName = "" ∧ st.currentWindowTitle = "")

/-- Lookup in the start-time dictionary (_visibleAppStartTimes). -/
def lookupKey (k : String) : List (String × Rat) → Option Rat
  | [] => none
  | p :: rest => if p.1 = k then some p.2 else lookupKey k rest

/-- Removal of a key from the start-time dictionary. -/
def eraseKey (k : String) : List (String × Rat) → List (String × Rat)
  | [] => []
  | p :: rest => if p.1 = k then eraseKey k rest else p :: eraseKey k rest

/-- ConcurrentDictionary.TryRemove: returns the removed value when the
key is present, leaving the dictionary unchanged otherwise. -/
def tryRemove (k : String) (m : List (String × Rat)) :
    Option Rat × List (String × Rat) :=
  match lookupKey k m with
  | none => (none, m)
  | some t => (some t, eraseKey k m)

/-- The dictionary indexer assignment: upsert of a key. -/
def insertTime (k : String) (v : Rat) (m : List (String × Rat)) :
    List (String × Rat) :=
  (k, v) :: eraseKey k m

/-- The log entry built inside TrackVisibleWindows when a visible
session closes (all nine fields present, fixed placeholder title,
screenTime = true). -/
def visibleSession (env : Env) (now utcNow : Rat) (app : String)
    (startTime : Rat) : Session :=
  { timestamp := utcNow
    localTimestamp := some now
    machineName := some env.machineName
    userName := some env.userName
    appName := app
    windowTitle := "(Visible Window)"
    durationSeconds := csharpIntCast (now - startTime)
    executablePath := some (env.executablePathOf app)
    screenTime := true }

/-- The log entry built inside StopAsync for a flushed visible session:
only timestamp, appName, windowTitle, durationSeconds and screenTime
appear in the anonymous object; the other four fields are absent. -/
def shutdownVisibleSession (now utcNow : Rat) (app : String)
    (startTime : Rat) : Session :=
  { timestamp := utcNow
    localTimestamp := none
    machineName := none
    userName := none
    appName := app
    windowTitle := "(Visible Window - Shutdown)"
    durationSeconds := csharpIntCast (now - startTime)
    executablePath := none
    screenTime := true }

/-- The closing loop shared by TrackVisibleWindows and StopAsync: for
each listed app, TryRemove its start-time entry and, when the entry was
present and the duration meets the threshold, emit a session built by
mk, preserving the iteration order of the emissions. -/
def closeVisibleLoop (now threshold : Rat) (mk : String → Rat → Session) :
    List String → List (String × Rat) → List (String × Rat) × List Session
  | [], m => (m, [])
  | app :: rest, m =>
    match tryRemove app m with
    | (none, m1) => closeVisibleLoop now threshold mk rest m1
    | (some t, m1) =>
      let tail := closeVisibleLoop now threshold mk rest m1
      (tail.1,
       (if threshold ≤ now - t then [mk app t] else []) ++ tail.2)

/-- What the closing loop emits for a single app, as a function of the
dictionary it starts from: the session built from the stored start time
when the app has an entry and the duration meets the threshold. -/
def closeEmitFun (now threshold : Rat) (mk : String → Rat → Session)
    (m : List (String × Rat)) (a : String) : Option Session :=
  match lookupKey a m with
  | none => none
  | some t => if threshold ≤ now - t then some (mk a t) else none

/-- The screen-time tracking state: the start-time dictionary
(_visibleAppStartTimes) and the set of currently visible apps
(_currentlyVisibleApps, a HashSet modelled as a duplicate-free list). -/
structure VisibleState where
  visibleAppStartTimes : List (String × Rat)
  currentlyVisibleApps : List String
deriving DecidableEq

/-- TrackVisibleWindows, given the freshly enumerated set of visible
app names: close the sessions of apps no longer visible (threshold two
seconds), record a start time for newly visible apps, and replace the
visible set with the new one. -/
def trackVisibleWindows (env : Env) (now utcNow : Rat)
    (visibleAppsNow : List String) (st : VisibleState) :
    VisibleState × List Session :=
  let closedApps := st.currentlyVisibleApps.filter (fun a => decide (¬ a ∈ visibleAppsNow))
  let closed := closeVisibleLoop now 2 (visibleSession env now utcNow)
    closedApps st.visibleAppStartTimes
  let openedApps := visibleAppsNow.filter (fun a => decide (¬ a ∈ st.currentlyVisibleApps))
  let m2 := openedApps.foldl (fun m app => insertTime app now m) closed.1
  ({ visibleAppStartTimes := m2, currentlyVisibleApps := visibleAppsNow },
   closed.2)

/-- The VisibleSet invariant stated in the specification: an app has a
start-time entry exactly when it is in the visible set. -/
def visInvariant (vs : VisibleState) : Prop :=
  ∀ a : String,
    (lookupKey a vs.visibleAppStartTimes).isSome = true ↔
      a ∈ vs.currentlyVisibleApps

/-- StopAsync: close the current focus session, then flush every app of
the visible set with the relaxed one-second threshold and the reduced
shutdown log shape.  The visible set itself is not cleared.  The
focused emission is dispatched before the visible ones. -/
def stopAsync (env : Env) (now utcNow : Rat) (fs : FocusState)
    (vs : VisibleState) : FocusState × VisibleState × List Session :=
  let fstep := endCurrentSession env now utcNow fs
  let flush := closeVisibleLoop now 1 (shutdownVisibleSession now utcNow)
    vs.currentlyVisibleApps vs.visibleAppStartTimes
  (fstep.1,
   { visibleAppStartTimes := flush.1,
     currentlyVisibleApps := vs.currentlyVisibleApps },
   fstep.2.toList ++ flush.2)

/-- One window seen by the EnumWindows callback. -/
structure WindowInfo where
  isVisible : Bool
  isMinimized : Bool
  ownerProcessName : String
  ownerResolvable : Bool
deriving DecidableEq

/-- The EnumWindows pass of TrackVisibleWindows: skip invisible,
minimized, unresolvable and ignored windows and collect each remaining
owner name once (HashSet.Add). -/
def buildVisibleAppsNow (windows : List WindowInfo) : List String :=
  windows.foldl (fun acc w =>
    if w.isVisible = false ∨ w.isMinimized = true then acc
    else if w.ownerResolvable = false then acc
    else if isIgnoredProcess w.ownerProcessName then acc
    else if w.ownerProcessName ∈ acc then acc
    else acc ++ [w.ownerProcessName]) []

/-- The outcome of the single PostAsync call inside SendToDashboard: a
response with a status, or a thrown exception (timeout or connection
failure). -/
inductive PostOutcome where
  | response (isSuccessStatusCode : Bool) (statusCode : Nat)
  | thrown (msg : String)
deriving DecidableEq

/-- The HttpClient timeout configured by SendToDashboard. -/
def httpTimeoutSeconds : Rat := 10

/-- The try block of SendToDashboard: one PostAsync call, consuming
only attempt number zero of the network behaviour; a non-success status
produces a warning log, a thrown exception escapes the block. -/
def sendToDashboardBody (attempts : Nat → PostOutcome) :
    Except String (List String) :=
  match attempts 0 with
  | PostOutcome.thrown msg => Except.error msg
  | PostOutcome.response true _ => Except.ok []
  | PostOutcome.response false code =>
      Except.ok (["Dashboard rejected log: " ++ toString code])

/-- SendToDashboard: the catch-all handler turns every exception of the
try block into an error log, so the caller always receives a plain log
list and never an exception. -/
def sendToDashboard (attempts : Nat → PostOutcome) : List String :=
  match sendToDashboardBody attempts with
  | Except.ok logs => logs
  | Except.error msg => ["Failed to send activity to dashboard: " ++ msg]

/-- A concrete ambient environment used by the closed witness and
counterexample statements. -/
def env0 : Env :=
  { machineName := "machine0", userName := "user0",
    executablePathOf := fun _ => "" }

/-! ### Dictionary lemmas -/

theorem lookupKey_eraseKey_self (k : String) (m : List (String × Rat)) :
    lookupKey k (eraseKey k m) = none := by
  induction m with
  | nil => rfl
  | cons p rest ih =>
    by_cases h : p.1 = k
    · simp only [eraseKey, if_pos h]; exact ih
    · simp [eraseKey, lookupKey, h, ih]

theorem lookupKey_eraseKey_ne (a k : String) (m : List (String × Rat))
    (h : a ≠ k) : lookupKey a (eraseKey k m) = lookupKey a m := by
  induction m with
  | nil => rfl
  | cons p rest ih =>
    by_cases h2 : p.1 = a
    · have h1 : ¬ p.1 = k := by rw [h2]; exact h
      simp [eraseKey, lookupKey, h1, h2, h, ih]
    · by_cases h1 : p.1 = k
      · simp [eraseKey, lookupKey, h1, h2, ih, Ne.symm h]
      · simp [eraseKey, lookupKey, h1, h2, ih]

theorem mem_of_mem_eraseKey {p : String × Rat} {k : String}
    {m : List (String × Rat)} (h : p ∈ eraseKey k m) : p ∈ m := by
  induction m with
  | nil => simp [eraseKey] at h
  | cons q rest ih =>
    by_cases h1 : q.1 = k
    · simp only [eraseKey, if_pos h1] at h
      exact List.mem_cons_of_mem q (ih h)
    · simp only [eraseKey, if_neg h1, List.mem_cons] at h
      rcases h with h | h
      · exact h ▸ List.mem_cons_self q rest
      · exact List.mem_cons_of_mem q (ih h)

theorem mem_of_lookupKey_some {k : String} {t : Rat}
    {m : List (String × Rat)} (h : lookupKey k m = some t) : (k, t) ∈ m := by
  induction m with
  | nil => simp [lookupKey] at h
  | cons p rest ih =>
    by_cases h1 : p.1 = k
    · simp only [lookupKey, if_pos h1] at h
      have : p = (k, t) := by
        cases p with
        | mk a b =>
          simp only at h1
          simp only [Option.some.injEq] at h
          simp [h1, h]
      exact this ▸ List.mem_cons_self p rest
    · simp only [lookupKey, if_neg h1] at h
      exact List.mem_cons_of_mem p (ih h)

theorem lookupKey_isSome_of_mem {k : String} {t : Rat}
    {m : List (String × Rat)} (h : (k, t) ∈ m) :
    (lookupKey k m).isSome = true := by
  induction m with
  | nil => simp at h
  | cons p rest ih =>
    rcases List.mem_cons.mp h with h1 | h1
    · simp [lookupKey, ← h1]
    · by_cases h2 : p.1 = k
      · simp [lookupKey, h2]
      · simp [lookupKey, h2, ih h1]

theorem lookupKey_eq_none_of_not_isSome {k : String}
    {m : List (String × Rat)} (h : ¬ (lookupKey k m).isSome = true) :
    lookupKey k m = none := by
  cases hl : lookupKey k m with
  | none => rfl
  | some t => rw [hl] at h; simp at h

theorem lookupKey_insertTime (a k : String) (v : Rat)
    (m : List (String × Rat)) :
    lookupKey a (insertTime k v m) =
      if a = k then some v else lookupKey a m := by
  by_cases h : a = k
  · subst h; simp [insertTime, lookupKey]
  · have h1 : k ≠ a := fun hh => h hh.symm
    simp [insertTime, lookupKey, h, h1, lookupKey_eraseKey_ne a k m h]

theorem lookupKey_insertAll (opened : List String) (now : Rat)
    (m : List (String × Rat)) (a : String) :
    lookupKey a (opened.foldl (fun m1 app => insertTime app now m1) m) =
      if a ∈ opened then some now else lookupKey a m := by
  induction opened generalizing m with
  | nil => simp
  | cons k rest ih =>
    simp only [List.foldl_cons]
    rw [ih]
    by_cases ha : a ∈ rest
    · simp [ha]
    · by_cases hak : a = k
      · subst hak; simp [ha, lookupKey_insertTime]
      · simp [ha, hak, lookupKey_insertTime]

/-! ### Lemmas about the shared closing loop -/

theorem closeVisibleLoop_cons_none {now threshold : Rat}
    {mk : String → Rat → Session} {app : String} {rest : List String}
    {m : List (String × Rat)} (h : lookupKey app m = none) :
    closeVisibleLoop now threshold mk (app :: rest) m =
      closeVisibleLoop now threshold mk rest m := by
  simp [closeVisibleLoop, tryRemove, h]

theorem closeVisibleLoop_cons_some {now threshold : Rat}
    {mk : String → Rat → Session} {app : String} {rest : List String}
    {m : List (String × Rat)} {t : Rat} (h : lookupKey app m = some t) :
    closeVisibleLoop now threshold mk (app :: rest) m =
      ((closeVisibleLoop now threshold mk rest (eraseKey app m)).1,
       (if threshold ≤ now - t then [mk app t] else []) ++
         (closeVisibleLoop now threshold mk rest (eraseKey app m)).2) := by
  simp [closeVisibleLoop, tryRemove, h]

theorem lookupKey_closeVisibleLoop (now threshold : Rat)
    (mk : String → Rat → Session) (apps : List String)
    (m : List (String × Rat)) (a : String) :
    lookupKey a (closeVisibleLoop now threshold mk apps m).1 =
      if a ∈ apps then none else lookupKey a m := by
  induction apps generalizing m with
  | nil => simp [closeVisibleLoop]
  | cons app rest ih =>
    cases hl : lookupKey app m with
    | none =>
      rw [closeVisibleLoop_cons_none hl, ih]
      by_cases ha : a ∈ rest
      · simp [ha]
      · by_cases haa : a = app
        · subst haa; simp [ha, hl]
        · simp [ha, haa]
    | some t =>
      rw [closeVisibleLoop_cons_some hl]
      simp only
      rw [ih]
      by_cases ha : a ∈ rest
      · simp [ha]
      · by_cases haa : a = app
        · subst haa; simp [ha, lookupKey_eraseKey_self]
        · simp [ha, haa, lookupKey_eraseKey_ne a app m haa]

theorem closeVisibleLoop_shape (now threshold : Rat)
    (mk : String → Rat → Session) (apps : List String)
    (m : List (String × Rat)) :
    ∀ s ∈ (closeVisibleLoop now threshold mk apps m).2,
      ∃ a t, a ∈ apps ∧ (a, t) ∈ m ∧ threshold ≤ now - t ∧ s = mk a t := by
  induction apps generalizing m with
  | nil => simp [closeVisibleLoop]
  | cons app rest ih =>
    intro s hs
    cases hl : lookupKey app m with
    | none =>
      rw [closeVisibleLoop_cons_none hl] at hs
      obtain ⟨a, t, ha, hm, hthr, hmk⟩ := ih m s hs
      exact ⟨a, t, List.mem_cons_of_mem _ ha, hm, hthr, hmk⟩
    | some t =>
      rw [closeVisibleLoop_cons_some hl] at hs
      simp only [List.mem_append] at hs
      rcases hs with hs | hs
      · by_cases hthr : threshold ≤ now - t
        · simp only [if_pos hthr, List.mem_singleton] at hs
          exact ⟨app, t, List.mem_cons_self _ _, mem_of_lookupKey_some hl,
            hthr, hs⟩
        · simp [if_neg hthr] at hs
      · obtain ⟨a, t1, ha, hm, hthr, hmk⟩ := ih (eraseKey app m) s hs
        exact ⟨a, t1, List.mem_cons_of_mem _ ha, mem_of_mem_eraseKey hm,
          hthr, hmk⟩

theorem filterMapCongr {α β : Type} (f g : α → Option β) (l : List α)
    (h : ∀ a ∈ l, f a = g a) : l.filterMap f = l.filterMap g := by
  induction l with
  | nil => rfl
  | cons a rest ih =>
    rw [List.filterMap_cons, List.filterMap_cons, h a (List.mem_cons_self a rest),
      ih (fun b hb => h b (List.mem_cons_of_mem a hb))]

theorem closeVisibleLoop_emits (now threshold : Rat)
    (mk : String → Rat → Session) (apps : List String)
    (m : List (String × Rat)) (hnd : apps.Nodup) :
    (closeVisibleLoop now threshold mk apps m).2 =
      apps.filterMap (closeEmitFun now threshold mk m) := by
  induction apps generalizing m with
  | nil => simp [closeVisibleLoop]
  | cons app rest ih =>
    obtain ⟨hnotmem, hrest⟩ := List.nodup_cons.mp hnd
    have hcong : ∀ m1 : List (String × Rat),
        rest.filterMap (closeEmitFun now threshold mk (eraseKey app m1)) =
          rest.filterMap (closeEmitFun now threshold mk m1) := by
      intro m1
      apply filterMapCongr
      intro b hb
      have hba : b ≠ app := fun hh => hnotmem (hh ▸ hb)
      simp [closeEmitFun, lookupKey_eraseKey_ne b app m1 hba]
    cases hl : lookupKey app m with
    | none =>
      rw [closeVisibleLoop_cons_none hl, List.filterMap_cons]
      simp only [closeEmitFun, hl]
      exact ih m hrest
    | some t =>
      rw [closeVisibleLoop_cons_some hl]
      simp only [List.filterMap_cons, closeEmitFun, hl]
      by_cases hthr : threshold ≤ now - t
      · simp only [if_pos hthr]
        rw [ih (eraseKey app m) hrest, hcong m]
        simp [closeEmitFun]
      · simp only [if_neg hthr]
        rw [ih (eraseKey app m) hrest, hcong m]
        simp [closeEmitFun]

theorem map_appName_filterMap (f : String → Option Session) (l : List String)
    (h : ∀ a ∈ l, ∃ s, f a = some s ∧ s.appName = a) :
    (l.filterMap f).map (fun s => s.appName) = l := by
  induction l with
  | nil => rfl
  | cons a rest ih =>
    obtain ⟨s, hfa, hname⟩ := h a (List.mem_cons_self a rest)
    rw [List.filterMap_cons, hfa]
    simp only [List.map_cons, hname]
    rw [ih (fun b hb => h b (List.mem_cons_of_mem a hb))]

theorem lookupKey_trackVisibleWindows (env : Env) (now utcNow : Rat)
    (curr : List String) (vs : VisibleState) (a : String) :
    lookupKey a (trackVisibleWindows env now utcNow curr vs).1.visibleAppStartTimes =
      if a ∈ curr then
        (if a ∈ vs.currentlyVisibleApps then lookupKey a vs.visibleAppStartTimes
         else some now)
      else
        (if a ∈ vs.currentlyVisibleApps then none
         else lookupKey a vs.visibleAppStartTimes) := by
  simp only [trackVisibleWindows]
  rw [lookupKey_insertAll, lookupKey_closeVisibleLoop]
  by_cases h1 : a ∈ curr <;> by_cases h2 : a ∈ vs.currentlyVisibleApps <;>
    simp [h1, h2, List.mem_filter]

theorem trackVisibleWindows_visible (env : Env) (now utcNow : Rat)
    (curr : List String) (vs : VisibleState) :
    (trackVisibleWindows env now utcNow curr vs).1.currentlyVisibleApps = curr := rfl

theorem lookupKey_stopAsync (env : Env) (now utcNow : Rat)
    (fs : FocusState) (vs : VisibleState) (a : String) :
    lookupKey a (stopAsync env now utcNow fs vs).2.1.visibleAppStartTimes =
      if a ∈ vs.currentlyVisibleApps then none
      else lookupKey a vs.visibleAppStartTimes := by
  simp only [stopAsync]
  rw [lookupKey_closeVisibleLoop]

/-! ### Focused-time helper lemmas -/

theorem ne_empty_of_not_blank {s : String}
    (h : isNullOrWhiteSpace s = false) : s ≠ "" := by
  intro he
  subst he
  simp [isNullOrWhiteSpace] at h

theorem focusInv_initial : focusInv initialFocusState := by
  simp [focusInv, initialFocusState]

theorem focusTick_fst (env : Env) (now utcNow : Rat)
    (title processName : String) (st : FocusState) :
    (focusTick env now utcNow title processName st).1 =
      if validSample title processName ∧ changedPair st title processName then
        { currentProcessName := processName, currentWindowTitle := title,
          sessionStartTime := now }
      else st := by
  by_cases h1 : isNullOrWhiteSpace title = false ∧ isNullOrWhiteSpace processName = false
  · by_cases h2 : processName ≠ st.currentProcessName ∨ title ≠ st.currentWindowTitle
    · simp [focusTick, validSample, changedPair, h1, h2]
    · simp [focusTick, validSample, changedPair, h1, h2]
  · simp [focusTick, validSample, changedPair, h1]

theorem focusTick_snd (env : Env) (now utcNow : Rat)
    (title processName : String) (st : FocusState) :
    (focusTick env now utcNow title processName st).2 =
      if validSample title processName ∧ changedPair st title processName then
        (endCurrentSession env now utcNow st).2
      else none := by
  by_cases h1 : isNullOrWhiteSpace title = false ∧ isNullOrWhiteSpace processName = false
  · by_cases h2 : processName ≠ st.currentProcessName ∨ title ≠ st.currentWindowTitle
    · simp [focusTick, validSample, changedPair, h1, h2]
    · simp [focusTick, validSample, changedPair, h1, h2]
  · simp [focusTick, validSample, changedPair, h1]

theorem endCurrentSession_fst (env : Env) (now utcNow : Rat) (st : FocusState) :
    (endCurrentSession env now utcNow st).1 =
      if st.sessionStartTime = dateTimeMinValue then st
      else initialFocusState := by
  by_cases h : st.sessionStartTime = dateTimeMinValue <;>
    simp [endCurrentSession, h]

theorem endCurrentSession_snd (env : Env) (now utcNow : Rat) (st : FocusState) :
    (endCurrentSession env now utcNow st).2 =
      if st.sessionStartTime ≠ dateTimeMinValue ∧ 1 ≤ now - st.sessionStartTime
      then some (focusedSession env now utcNow st (now - st.sessionStartTime))
      else none := by
  by_cases h : st.sessionStartTime = dateTimeMinValue
  · simp [endCurrentSession, h]
  · by_cases h2 : 1 ≤ now - st.sessionStartTime <;>
      simp [endCurrentSession, h, h2]

theorem focusTick_noop (env : Env) (st : FocusState) (smp : FocusSample)
    (h : noopSample st smp) :
    focusTick env smp.now smp.utcNow smp.title smp.processName st = (st, none) := by
  rcases h with h | h | h
  · simp [focusTick, h]
  · simp [focusTick, h]
  · by_cases hv : isNullOrWhiteSpace smp.title = false ∧
        isNullOrWhiteSpace smp.processName = false
    · simp [focusTick, hv, h.1, h.2]
    · simp [focusTick, hv]

theorem runFocus_noop (env : Env) (st : FocusState)
    (samples : List FocusSample) (h : ∀ smp ∈ samples, noopSample st smp) :
    runFocus env samples st = (st, []) := by
  induction samples with
  | nil => rfl
  | cons smp rest ih =>
    have h1 := focusTick_noop env st smp (h smp (List.mem_cons_self _ _))
    simp [runFocus, h1, ih (fun b hb => h b (List.mem_cons_of_mem _ hb))]

/-! ### Claims about the Focus Session Tracker -/

/-- C1: A focused session is emitted by a tick exactly when a valid
sample with a changed pair arrives while a session is open and the
elapsed time since its start is at least one second; the emitted
session carries the previous pair and duration now minus startTime; a
changed valid sample opens the new identity with start time now; an
unchanged valid sample is a no-op; shutdown closure emits exactly when
the open session has accumulated at least one second; and a run of
ticks whose samples are blank or unchanged leaves the state untouched
and emits nothing. -/
theorem focus_session_emission_characterization (env : Env) (now utcNow : Rat)
    (title processName : String) (st : FocusState) :
    ((focusTick env now utcNow title processName st).2 ≠ none ↔
      validSample title processName ∧ changedPair st title processName ∧
        st.sessionStartTime ≠ dateTimeMinValue ∧ 1 ≤ now - st.sessionStartTime)
    ∧ (∀ s : Session, (focusTick env now utcNow title processName st).2 = some s →
        s.appName = st.currentProcessName ∧ s.windowTitle = st.currentWindowTitle ∧
        s.durationSeconds = csharpIntCast (now - st.sessionStartTime) ∧
        s.screenTime = false ∧
        s = focusedSession env now utcNow st (now - st.sessionStartTime))
    ∧ (validSample title processName → changedPair st title processName →
        (focusTick env now utcNow title processName st).1 =
          { currentProcessName := processName, currentWindowTitle := title,
            sessionStartTime := now })
    ∧ (validSample title processName → ¬ changedPair st title processName →
        focusTick env now utcNow title processName st = (st, none))
    ∧ ((endCurrentSession env now utcNow st).2 ≠ none ↔
        st.sessionStartTime ≠ dateTimeMinValue ∧ 1 ≤ now - st.sessionStartTime)
    ∧ (∀ samples : List FocusSample, (∀ smp ∈ samples, noopSample st smp) →
        runFocus env samples st = (st, [])) := by
  refine ⟨?_, ?_, ?_, ?_, ?_, ?_⟩
  · rw [focusTick_snd]
    by_cases h : validSample title processName ∧ changedPair st title processName
    · rw [if_pos h, endCurrentSession_snd]
      by_cases h2 : st.sessionStartTime ≠ dateTimeMinValue ∧
          1 ≤ now - st.sessionStartTime
      · rw [if_pos h2]
        constructor
        · intro _; exact ⟨h.1, h.2, h2.1, h2.2⟩
        · intro _; simp
      · simp only [if_neg h2]
        constructor
        · intro hc; exact absurd rfl hc
        · intro hc; exact absurd ⟨hc.2.2.1, hc.2.2.2⟩ h2
    · rw [if_neg h]
      constructor
      · intro hc; exact absurd rfl hc
      · intro hc; exact absurd ⟨hc.1, hc.2.1⟩ h
  · intro s hs
    rw [focusTick_snd] at hs
    by_cases h : validSample title processName ∧ changedPair st title processName
    · rw [if_pos h, endCurrentSession_snd] at hs
      by_cases h2 : st.sessionStartTime ≠ dateTimeMinValue ∧
          1 ≤ now - st.sessionStartTime
      · rw [if_pos h2] at hs
        have hse : s = focusedSession env now utcNow st (now - st.sessionStartTime) :=
          (Option.some.injEq _ _ ▸ hs).symm
        subst hse
        simp [focusedSession]
      · rw [if_neg h2] at hs; exact absurd hs (by simp)
    · rw [if_neg h] at hs; exact absurd hs (by simp)
  · intro hv hc
    rw [focusTick_fst, if_pos ⟨hv, hc⟩]
  · intro hv hc
    have h1 := focusTick_fst env now utcNow title processName st
    have h2 := focusTick_snd env now utcNow title processName st
    rw [if_neg (fun hh => hc hh.2)] at h1
    rw [if_neg (fun hh => hc hh.2)] at h2
    exact Prod.ext_iff.mpr ⟨h1, h2⟩
  · rw [endCurrentSession_snd]
    by_cases h2 : st.sessionStartTime ≠ dateTimeMinValue ∧
        1 ≤ now - st.sessionStartTime
    · simp [h2]
    · simp only [if_neg h2]
      constructor
      · intro hc; exact absurd rfl hc
      · intro hc; exact absurd hc h2
  · exact runFocus_noop env st

/-- C1 witness: switching from an open (notes, Doc) session of seven
seconds to a (mail, Inbox) sample emits a session. -/
theorem focus_session_emission_characterization_witness :
    (focusTick env0 10 10 ("Inbox") ("mail")
      { currentProcessName := "notes", currentWindowTitle := "Doc",
        sessionStartTime := 3 }).2 ≠ none :=
  (focus_session_emission_characterization env0 10 10 ("Inbox") ("mail")
    { currentProcessName := "notes", currentWindowTitle := "Doc",
      sessionStartTime := 3 }).1.mpr
    ⟨⟨rfl, rfl⟩, Or.inl (by decide), by decide, by norm_num⟩

/-- C6: A tick whose sample has a blank title or a blank app identifier
is a no-op on the FocusState; in particular a foreground window whose
resolved owner is on the ignore list (reported as an empty app
identifier with the title kept) leaves the current session untouched. -/
theorem ignored_or_blank_sample_is_noop (env : Env) (now utcNow : Rat)
    (st : FocusState) :
    (∀ title processName : String,
      isNullOrWhiteSpace title = true ∨ isNullOrWhiteSpace processName = true →
        focusTick env now utcNow title processName st = (st, none))
    ∧ (∀ fg : ForegroundInfo, fg.ownerResolvable = true →
        isIgnoredProcess fg.ownerProcessName = true →
        focusTick env now utcNow (getActiveWindowInfo fg).1
          (getActiveWindowInfo fg).2 st = (st, none)) := by
  constructor
  · intro title processName h
    rcases h with h | h
    · simp [focusTick, h]
    · simp [focusTick, h]
  · intro fg hres hign
    by_cases hz : fg.hwndIsZero
    · simp [getActiveWindowInfo, hz, focusTick, isNullOrWhiteSpace]
    · by_cases ht : trimString fg.rawTitle = ""
      · simp [getActiveWindowInfo, hz, ht, focusTick, isNullOrWhiteSpace]
      · simp [getActiveWindowInfo, hz, ht, hres, hign, focusTick,
          isNullOrWhiteSpace]

/-- C6 witness: an ignored foreground owner (explorer) does not close
the open (notes, Doc) session. -/
theorem ignored_or_blank_sample_is_noop_witness :
    focusTick env0 10 10
        (getActiveWindowInfo
          { hwndIsZero := false, rawTitle := "File Explorer",
            ownerProcessName := "explorer", ownerResolvable := true }).1
        (getActiveWindowInfo
          { hwndIsZero := false, rawTitle := "File Explorer",
            ownerProcessName := "explorer", ownerResolvable := true }).2
        { currentProcessName := "notes", currentWindowTitle := "Doc",
          sessionStartTime := 3 } =
      ({ currentProcessName := "notes", currentWindowTitle := "Doc",
         sessionStartTime := 3 }, none) :=
  (ignored_or_blank_sample_is_noop env0 10 10
    { currentProcessName := "notes", currentWindowTitle := "Doc",
      sessionStartTime := 3 }).2
    { hwndIsZero := false, rawTitle := "File Explorer",
      ownerProcessName := "explorer", ownerResolvable := true }
    rfl (by decide)

/-- C7 counterexample: when the owning process of the foreground window
cannot be resolved, the code substitutes the identifier unknown even if
the true owner (explorer) is on the ignore list, instead of reporting
an empty app identifier as the claim states for the
unresolvable-but-ignored case. -/
theorem foreground_query_unresolvable_ignored_counterexample :
    getActiveWindowInfo
        { hwndIsZero := false, rawTitle := "File Explorer",
          ownerProcessName := "explorer", ownerResolvable := false } =
      ("File Explorer", "unknown")
    ∧ isIgnoredProcess ("explorer") = true
    ∧ ("unknown" : String) ≠ "" := by
  refine ⟨by decide, by decide, by decide⟩

/-- C7 (amended): the foreground query returns both strings empty when
there is no foreground window or the trimmed title is empty; it returns
an empty app identifier with the non-empty title exactly when the owner
resolves and is ignored; and when resolution fails it degrades to the
substituted identifier unknown, regardless of whether the true owner is
ignored. -/
theorem foreground_query_characterization (fg : ForegroundInfo) :
    (fg.hwndIsZero = true → getActiveWindowInfo fg = ("", ""))
    ∧ (trimString fg.rawTitle = "" → getActiveWindowInfo fg = ("", ""))
    ∧ (fg.hwndIsZero = false → trimString fg.rawTitle ≠ "" → fg.ownerResolvable = true →
        isIgnoredProcess fg.ownerProcessName = true →
        getActiveWindowInfo fg = (trimString fg.rawTitle, ""))
    ∧ (fg.hwndIsZero = false → trimString fg.rawTitle ≠ "" → fg.ownerResolvable = true →
        isIgnoredProcess fg.ownerProcessName = false →
        getActiveWindowInfo fg = (trimString fg.rawTitle, fg.ownerProcessName))
    ∧ (fg.hwndIsZero = false → trimString fg.rawTitle ≠ "" → fg.ownerResolvable = false →
        getActiveWindowInfo fg = (trimString fg.rawTitle, "unknown")) := by
  refine ⟨?_, ?_, ?_, ?_, ?_⟩ <;> intros <;> simp_all [getActiveWindowInfo]

/-- C7 witness: a resolvable, non-ignored owner is reported with its
trimmed title and its own name. -/
theorem foreground_query_characterization_witness :
    getActiveWindowInfo
        { hwndIsZero := false, rawTitle := "notes.txt - Notepad",
          ownerProcessName := "notepad", ownerResolvable := true } =
      (trimString ("notes.txt - Notepad"), "notepad") :=
  (foreground_query_characterization
    { hwndIsZero := false, rawTitle := "notes.txt - Notepad",
      ownerProcessName := "notepad", ownerResolvable := true }).2.2.2.1
    rfl (by decide) rfl (by decide)

/-- C10: the sentinel invariant (start time is DateTime.MinValue exactly
when both identity fields are empty) holds initially, is preserved by
every tick and by EndCurrentSession, and the only path that stores a
fresh start time also stores a non-empty app name and title. -/
theorem focus_state_sentinel_invariant (env : Env) (now utcNow : Rat)
    (title processName : String) (st : FocusState)
    (hnow : now ≠ dateTimeMinValue) (hinv : focusInv st) :
    focusInv (focusTick env now utcNow title processName st).1
    ∧ focusInv (endCurrentSession env now utcNow st).1
    ∧ focusInv initialFocusState
    ∧ (validSample title processName → changedPair st title processName →
        (focusTick env now utcNow title processName st).1 =
          { currentProcessName := processName, currentWindowTitle := title,
            sessionStartTime := now }
        ∧ processName ≠ "" ∧ title ≠ "") := by
  refine ⟨?_, ?_, focusInv_initial, ?_⟩
  · rw [focusTick_fst]
    by_cases h : validSample title processName ∧ changedPair st title processName
    · rw [if_pos h]
      simp [focusInv, hnow, ne_empty_of_not_blank h.1.2]
    · rw [if_neg h]; exact hinv
  · rw [endCurrentSession_fst]
    by_cases h : st.sessionStartTime = dateTimeMinValue
    · rw [if_pos h]; exact hinv
    · rw [if_neg h]; exact focusInv_initial
  · intro hv hc
    rw [focusTick_fst, if_pos ⟨hv, hc⟩]
    exact ⟨rfl, ne_empty_of_not_blank hv.2, ne_empty_of_not_blank hv.1⟩

/-- C10 witness: the invariant holds after a tick that opens a session
from the initial state. -/
theorem focus_state_sentinel_invariant_witness :
    focusInv (focusTick env0 5 5 ("Doc") ("notes") initialFocusState).1 :=
  (focus_state_sentinel_invariant env0 5 5 ("Doc") ("notes") initialFocusState
    (by decide) focusInv_initial).1

/-! ### Visibility helper lemmas -/

theorem trackVisibleWindows_snd (env : Env) (now utcNow : Rat)
    (curr : List String) (vs : VisibleState) :
    (trackVisibleWindows env now utcNow curr vs).2 =
      (closeVisibleLoop now 2 (visibleSession env now utcNow)
        (vs.currentlyVisibleApps.filter (fun a => decide (¬ a ∈ curr)))
        vs.visibleAppStartTimes).2 := rfl

theorem trackVisibleWindows_startTimes (env : Env) (now utcNow : Rat)
    (curr : List String) (vs : VisibleState) :
    (trackVisibleWindows env now utcNow curr vs).1.visibleAppStartTimes =
      (curr.filter (fun a => decide (¬ a ∈ vs.currentlyVisibleApps))).foldl
        (fun m app => insertTime app now m)
        (closeVisibleLoop now 2 (visibleSession env now utcNow)
          (vs.currentlyVisibleApps.filter (fun a => decide (¬ a ∈ curr)))
          vs.visibleAppStartTimes).1 := rfl

theorem stopAsync_emits (env : Env) (now utcNow : Rat) (fs : FocusState)
    (vs : VisibleState) :
    (stopAsync env now utcNow fs vs).2.2 =
      (endCurrentSession env now utcNow fs).2.toList ++
        (closeVisibleLoop now 1 (shutdownVisibleSession now utcNow)
          vs.currentlyVisibleApps vs.visibleAppStartTimes).2 := rfl

/-! ### Claims about the Visibility Session Tracker -/

/-- C3: the tick diffing is a pure function of the two sets: a closing
session is emitted exactly for each app of the previous set that is
absent from the current one (given every open entry meets the
two-second threshold), a new start time is recorded exactly for the
apps of the current set absent from the previous one, apps in the
intersection emit nothing and keep their start time, and equal sets
emit nothing and leave the start-time dictionary unchanged. -/
theorem visibility_diffing_characterization (env : Env) (now utcNow : Rat)
    (curr : List String) (vs : VisibleState)
    (hnd : vs.currentlyVisibleApps.Nodup)
    (hkeys : ∀ a ∈ vs.currentlyVisibleApps,
      (lookupKey a vs.visibleAppStartTimes).isSome = true)
    (hdur : ∀ p ∈ vs.visibleAppStartTimes, 2 ≤ now - p.2) :
    ((trackVisibleWindows env now utcNow curr vs).2.map (fun s => s.appName) =
      vs.currentlyVisibleApps.filter (fun a => decide (¬ a ∈ curr)))
    ∧ (∀ a, a ∈ curr → ¬ a ∈ vs.currentlyVisibleApps →
        lookupKey a (trackVisibleWindows env now utcNow curr vs).1.visibleAppStartTimes =
          some now)
    ∧ (∀ a, a ∈ curr → a ∈ vs.currentlyVisibleApps →
        lookupKey a (trackVisibleWindows env now utcNow curr vs).1.visibleAppStartTimes =
          lookupKey a vs.visibleAppStartTimes
        ∧ ∀ s ∈ (trackVisibleWindows env now utcNow curr vs).2, s.appName ≠ a)
    ∧ ((∀ a, a ∈ curr ↔ a ∈ vs.currentlyVisibleApps) →
        (trackVisibleWindows env now utcNow curr vs).2 = []
        ∧ (trackVisibleWindows env now utcNow curr vs).1.visibleAppStartTimes =
          vs.visibleAppStartTimes) := by
  refine ⟨?_, ?_, ?_, ?_⟩
  · rw [trackVisibleWindows_snd,
      closeVisibleLoop_emits _ _ _ _ _ (hnd.filter _)]
    apply map_appName_filterMap
    intro a ha
    have hmem : a ∈ vs.currentlyVisibleApps := (List.mem_filter.mp ha).1
    obtain ⟨t, ht⟩ := Option.isSome_iff_exists.mp (hkeys a hmem)
    have h2 : 2 ≤ now - t := hdur (a, t) (mem_of_lookupKey_some ht)
    exact ⟨visibleSession env now utcNow a t,
      by simp [closeEmitFun, ht, h2], by simp [visibleSession]⟩
  · intro a h1 h2
    rw [lookupKey_trackVisibleWindows]
    simp [h1, h2]
  · intro a h1 h2
    constructor
    · rw [lookupKey_trackVisibleWindows]
      simp [h1, h2]
    · intro s hs
      rw [trackVisibleWindows_snd] at hs
      obtain ⟨b, t, hb, _, _, hmk⟩ := closeVisibleLoop_shape _ _ _ _ _ s hs
      have hbn : ¬ b ∈ curr := by
        have := (List.mem_filter.mp hb).2
        simpa using this
      subst hmk
      simp only [visibleSession]
      intro hba
      exact hbn (hba ▸ h1)
  · intro h
    have hclosed : vs.currentlyVisibleApps.filter (fun a => decide (¬ a ∈ curr)) = [] := by
      rw [List.filter_eq_nil_iff]
      intro a ha
      simp [(h a).mpr ha]
    have hopened : curr.filter (fun a => decide (¬ a ∈ vs.currentlyVisibleApps)) = [] := by
      rw [List.filter_eq_nil_iff]
      intro a ha
      simp [(h a).mp ha]
    constructor
    · rw [trackVisibleWindows_snd, hclosed]
      rfl
    · rw [trackVisibleWindows_startTimes, hclosed, hopened]
      rfl

/-- C3 witness: previous set (a, b), current set (b, c): exactly one
closing session, for a. -/
theorem visibility_diffing_characterization_witness :
    (trackVisibleWindows env0 20 20 (["b", "c"])
      { visibleAppStartTimes := [("a", 3), ("b", 4)],
        currentlyVisibleApps := ["a", "b"] }).2.map (fun s => s.appName) =
      ["a"] := by
  rw [(visibility_diffing_characterization env0 20 20 (["b", "c"])
    { visibleAppStartTimes := [("a", 3), ("b", 4)],
      currentlyVisibleApps := ["a", "b"] }
    (by decide) (by decide)
    (by norm_num [List.forall_mem_cons])).1]
  rfl

/-- C4 counterexample: a state satisfying the invariant before shutdown
violates it after the shutdown flush, because StopAsync drains every
start-time entry but never clears the visible set. -/
theorem visibility_invariant_shutdown_counterexample :
    visInvariant { visibleAppStartTimes := [("app", 3)],
                   currentlyVisibleApps := ["app"] }
    ∧ ¬ visInvariant (stopAsync env0 10 10 initialFocusState
        { visibleAppStartTimes := [("app", 3)],
          currentlyVisibleApps := ["app"] }).2.1 := by
  constructor
  · intro a
    by_cases h : ("app" : String) = a
    · subst h
      simp [lookupKey]
    · simp [lookupKey, h, Ne.symm h]
  · intro hinv
    have h := hinv ("app")
    rw [lookupKey_stopAsync] at h
    have hvis : (stopAsync env0 10 10 initialFocusState
        { visibleAppStartTimes := [("app", 3)],
          currentlyVisibleApps := ["app"] }).2.1.currentlyVisibleApps =
        ["app"] := rfl
    rw [hvis] at h
    simp at h

/-- C4 (amended): the start-time-entry-iff-visible invariant is
preserved by every visibility tick, but the shutdown flush empties the
start-time dictionary while leaving the visible set untouched, so after
the flush the invariant holds exactly when the visible set was already
empty. -/
theorem visibility_invariant_ticks_and_flush (env : Env) (now utcNow : Rat)
    (curr : List String) (fs : FocusState) (vs : VisibleState)
    (hinv : visInvariant vs) :
    visInvariant (trackVisibleWindows env now utcNow curr vs).1
    ∧ (∀ a, lookupKey a
        (stopAsync env now utcNow fs vs).2.1.visibleAppStartTimes = none)
    ∧ (stopAsync env now utcNow fs vs).2.1.currentlyVisibleApps =
        vs.currentlyVisibleApps
    ∧ (visInvariant (stopAsync env now utcNow fs vs).2.1 ↔
        vs.currentlyVisibleApps = []) := by
  have hflushnone : ∀ a, lookupKey a
      (stopAsync env now utcNow fs vs).2.1.visibleAppStartTimes = none := by
    intro a
    rw [lookupKey_stopAsync]
    by_cases h : a ∈ vs.currentlyVisibleApps
    · simp [h]
    · rw [if_neg h]
      exact lookupKey_eq_none_of_not_isSome (fun hs => h ((hinv a).mp hs))
  refine ⟨?_, hflushnone, rfl, ?_⟩
  · intro a
    rw [lookupKey_trackVisibleWindows, trackVisibleWindows_visible]
    by_cases h1 : a ∈ curr
    · by_cases h2 : a ∈ vs.currentlyVisibleApps
      · simp [h1, h2, (hinv a).mpr h2]
      · simp [h1, h2]
    · by_cases h2 : a ∈ vs.currentlyVisibleApps
      · simp [h1, h2]
      · simp [h1, h2, hinv a]
  · constructor
    · intro hinv2
      rw [List.eq_nil_iff_forall_not_mem]
      intro a ha
      have h := (hinv2 a).mpr ha
      rw [hflushnone a] at h
      simp at h
    · intro hempty
      intro a
      rw [hflushnone a]
      have hvis : (stopAsync env now utcNow fs vs).2.1.currentlyVisibleApps =
          vs.currentlyVisibleApps := rfl
      rw [hvis, hempty]
      simp

/-- C4 witness: the invariant is preserved across a tick that closes
one app, keeps one and opens one. -/
theorem visibility_invariant_ticks_and_flush_witness :
    visInvariant (trackVisibleWindows env0 20 20 (["b", "c"])
      { visibleAppStartTimes := [("a", 3), ("b", 4)],
        currentlyVisibleApps := ["a", "b"] }).1 :=
  (visibility_invariant_ticks_and_flush env0 20 20 (["b", "c"])
    initialFocusState
    { visibleAppStartTimes := [("a", 3), ("b", 4)],
      currentlyVisibleApps := ["a", "b"] }
    (by
      intro a
      by_cases h1 : ("a" : String) = a
      · subst h1; simp [lookupKey]
      · by_cases h2 : ("b" : String) = a
        · subst h2; simp [lookupKey]
        · simp [lookupKey, h1, h2, Ne.symm h1, Ne.symm h2])).1

/-- C9: every session emitted by a visibility tick carries the fixed
placeholder title for visible windows, and every visible session
emitted by the shutdown flush carries the fixed shutdown placeholder
title; neither ever carries an actual window title. -/
theorem visible_session_placeholder_titles (env : Env) (now utcNow : Rat)
    (curr : List String) (fs : FocusState) (vs : VisibleState) :
    (∀ s ∈ (trackVisibleWindows env now utcNow curr vs).2,
      s.screenTime = true ∧ s.windowTitle = "(Visible Window)")
    ∧ (∀ s ∈ (stopAsync env now utcNow fs vs).2.2, s.screenTime = true →
        s.windowTitle = "(Visible Window - Shutdown)") := by
  constructor
  · intro s hs
    rw [trackVisibleWindows_snd] at hs
    obtain ⟨a, t, _, _, _, hmk⟩ := closeVisibleLoop_shape _ _ _ _ _ s hs
    subst hmk
    simp [visibleSession]
  · intro s hs hst
    rw [stopAsync_emits, List.mem_append] at hs
    rcases hs with hs | hs
    · rw [endCurrentSession_snd] at hs
      by_cases h : fs.sessionStartTime ≠ dateTimeMinValue ∧
          1 ≤ now - fs.sessionStartTime
      · rw [if_pos h] at hs
        simp only [Option.toList_some, List.mem_singleton] at hs
        subst hs
        simp [focusedSession] at hst
      · rw [if_neg h] at hs
        simp at hs
    · obtain ⟨a, t, _, _, _, hmk⟩ := closeVisibleLoop_shape _ _ _ _ _ s hs
      subst hmk
      simp [shutdownVisibleSession]

/-- C9 witness: the single session emitted when app a disappears from
the visible set has the placeholder title. -/
theorem visible_session_placeholder_titles_witness :
    (visibleSession env0 20 20 ("a") 3).screenTime = true ∧
      (visibleSession env0 20 20 ("a") 3).windowTitle = "(Visible Window)" :=
  (visible_session_placeholder_titles env0 20 20 [] initialFocusState
    { visibleAppStartTimes := [("a", 3)], currentlyVisibleApps := ["a"] }).1
    (visibleSession env0 20 20 ("a") 3)
    (by
      rw [trackVisibleWindows_snd]
      simp only [List.filter, closeVisibleLoop, tryRemove, lookupKey]
      norm_num)

/-- C2: given every open entry meets the relaxed one-second threshold,
the shutdown flush emits exactly one visible closing session per app of
the visible set (their appNames enumerate the visible set without
repetition), exactly one focused closing session when the FocusState is
non-empty with at least one second accrued and none otherwise, and it
never emits a visible session for an app absent from the visible set
nor a focused session when the FocusState is empty. -/
theorem shutdown_flush_exactly_once (env : Env) (now utcNow : Rat)
    (fs : FocusState) (vs : VisibleState)
    (hnd : vs.currentlyVisibleApps.Nodup)
    (hkeys : ∀ a ∈ vs.currentlyVisibleApps,
      (lookupKey a vs.visibleAppStartTimes).isSome = true)
    (hdur : ∀ p ∈ vs.visibleAppStartTimes, 1 ≤ now - p.2) :
    (((stopAsync env now utcNow fs vs).2.2.filter
        (fun s => s.screenTime)).map (fun s => s.appName) =
      vs.currentlyVisibleApps)
    ∧ (((stopAsync env now utcNow fs vs).2.2.filter
        (fun s => s.screenTime)).map (fun s => s.appName)).Nodup
    ∧ ((stopAsync env now utcNow fs vs).2.2.filter (fun s => !s.screenTime) =
        if fs.sessionStartTime ≠ dateTimeMinValue ∧
            1 ≤ now - fs.sessionStartTime
        then [focusedSession env now utcNow fs (now - fs.sessionStartTime)]
        else [])
    ∧ (∀ a, ¬ a ∈ vs.currentlyVisibleApps →
        ∀ s ∈ (stopAsync env now utcNow fs vs).2.2,
          s.screenTime = true → s.appName ≠ a)
    ∧ (fs.sessionStartTime = dateTimeMinValue →
        ∀ s ∈ (stopAsync env now utcNow fs vs).2.2, s.screenTime = true) := by
  have hmapname : ∀ a ∈ vs.currentlyVisibleApps,
      ∃ s, closeEmitFun now 1 (shutdownVisibleSession now utcNow)
        vs.visibleAppStartTimes a = some s ∧ s.appName = a := by
    intro a ha
    obtain ⟨t, ht⟩ := Option.isSome_iff_exists.mp (hkeys a ha)
    have h1 : 1 ≤ now - t := hdur (a, t) (mem_of_lookupKey_some ht)
    exact ⟨shutdownVisibleSession now utcNow a t,
      by simp [closeEmitFun, ht, h1], by simp [shutdownVisibleSession]⟩
  have hflush : (closeVisibleLoop now 1 (shutdownVisibleSession now utcNow)
      vs.currentlyVisibleApps vs.visibleAppStartTimes).2 =
        vs.currentlyVisibleApps.filterMap
          (closeEmitFun now 1 (shutdownVisibleSession now utcNow)
            vs.visibleAppStartTimes) :=
    closeVisibleLoop_emits _ _ _ _ _ hnd
  have hscreen : ∀ s ∈ (closeVisibleLoop now 1
      (shutdownVisibleSession now utcNow) vs.currentlyVisibleApps
      vs.visibleAppStartTimes).2, s.screenTime = true := by
    intro s hs
    obtain ⟨a, t, _, _, _, hmk⟩ := closeVisibleLoop_shape _ _ _ _ _ s hs
    subst hmk
    simp [shutdownVisibleSession]
  have hfilterTrue : (closeVisibleLoop now 1
      (shutdownVisibleSession now utcNow) vs.currentlyVisibleApps
      vs.visibleAppStartTimes).2.filter (fun s => s.screenTime) =
        (closeVisibleLoop now 1 (shutdownVisibleSession now utcNow)
          vs.currentlyVisibleApps vs.visibleAppStartTimes).2 :=
    List.filter_eq_self.mpr (fun s hs => hscreen s hs)
  have hfilterFalse : (closeVisibleLoop now 1
      (shutdownVisibleSession now utcNow) vs.currentlyVisibleApps
      vs.visibleAppStartTimes).2.filter (fun s => !s.screenTime) = [] := by
    rw [List.filter_eq_nil_iff]
    intro s hs
    simp [hscreen s hs]
  have hfocusTrue : ((endCurrentSession env now utcNow fs).2.toList.filter
      (fun s => s.screenTime)) = [] := by
    rw [endCurrentSession_snd]
    by_cases h : fs.sessionStartTime ≠ dateTimeMinValue ∧
        1 ≤ now - fs.sessionStartTime
    · rw [if_pos h]
      simp [focusedSession]
    · rw [if_neg h]
      rfl
  have hconj1 : ((stopAsync env now utcNow fs vs).2.2.filter
      (fun s => s.screenTime)).map (fun s => s.appName) =
        vs.currentlyVisibleApps := by
    rw [stopAsync_emits, List.filter_append, hfocusTrue, hfilterTrue,
      List.nil_append, hflush]
    exact map_appName_filterMap _ _ hmapname
  refine ⟨hconj1, ?_, ?_, ?_, ?_⟩
  · rw [hconj1]
    exact hnd
  · have hfocusFalse : ((endCurrentSession env now utcNow fs).2.toList.filter
        (fun s => !s.screenTime)) = (endCurrentSession env now utcNow fs).2.toList := by
      rw [endCurrentSession_snd]
      by_cases h : fs.sessionStartTime ≠ dateTimeMinValue ∧
          1 ≤ now - fs.sessionStartTime
      · rw [if_pos h]
        simp [focusedSession]
      · rw [if_neg h]
        rfl
    rw [stopAsync_emits, List.filter_append, hfocusFalse, hfilterFalse,
      List.append_nil, endCurrentSession_snd]
    by_cases h : fs.sessionStartTime ≠ dateTimeMinValue ∧
        1 ≤ now - fs.sessionStartTime
    · rw [if_pos h, if_pos h]
      rfl
    · rw [if_neg h, if_neg h]
      rfl
  · intro a ha s hs hst
    rw [stopAsync_emits, List.mem_append] at hs
    rcases hs with hs | hs
    · rw [endCurrentSession_snd] at hs
      by_cases h : fs.sessionStartTime ≠ dateTimeMinValue ∧
          1 ≤ now - fs.sessionStartTime
      · rw [if_pos h] at hs
        simp only [Option.toList_some, List.mem_singleton] at hs
        subst hs
        simp [focusedSession] at hst
      · rw [if_neg h] at hs
        simp at hs
    · obtain ⟨b, t, hb, _, _, hmk⟩ := closeVisibleLoop_shape _ _ _ _ _ s hs
      subst hmk
      simp only [shutdownVisibleSession]
      intro hba
      exact ha (hba ▸ hb)
  · intro hmin s hs
    rw [stopAsync_emits, List.mem_append] at hs
    rcases hs with hs | hs
    · rw [endCurrentSession_snd, if_neg (fun hh => hh.1 hmin)] at hs
      simp at hs
    · exact hscreen s hs

/-- C2 witness: flushing one open focus session and one visible app
emits exactly the one visible session named by that app. -/
theorem shutdown_flush_exactly_once_witness :
    ((stopAsync env0 10 10
      { currentProcessName := "notes", currentWindowTitle := "Doc",
        sessionStartTime := 3 }
      { visibleAppStartTimes := [("a", 4)],
        currentlyVisibleApps := ["a"] }).2.2.filter
        (fun s => s.screenTime)).map (fun s => s.appName) = ["a"] :=
  (shutdown_flush_exactly_once env0 10 10
    { currentProcessName := "notes", currentWindowTitle := "Doc",
      sessionStartTime := 3 }
    { visibleAppStartTimes := [("a", 4)],
      currentlyVisibleApps := ["a"] }
    (by decide) (by decide) (by norm_num [List.forall_mem_cons])).1

/-- C5 counterexample: the session the shutdown flush emits for a still
visible app omits the localTimestamp, machineName, userName and
executablePath fields from its JSON body, so not every delivered
session carries all nine fields. -/
theorem session_payload_shutdown_counterexample :
    (stopAsync env0 10 10 initialFocusState
      { visibleAppStartTimes := [("app", 3)],
        currentlyVisibleApps := ["app"] }).2.2 =
      [shutdownVisibleSession 10 10 ("app") 3]
    ∧ (shutdownVisibleSession 10 10 ("app") 3).localTimestamp = none
    ∧ (shutdownVisibleSession 10 10 ("app") 3).machineName = none
    ∧ (shutdownVisibleSession 10 10 ("app") 3).userName = none
    ∧ (shutdownVisibleSession 10 10 ("app") 3).executablePath = none := by
  refine ⟨?_, rfl, rfl, rfl, rfl⟩
  have h1 : (endCurrentSession env0 10 10 initialFocusState).2 = none := by
    rw [endCurrentSession_snd, if_neg]
    intro h
    exact h.1 rfl
  have h2 : lookupKey ("app") [(("app" : String), (3 : Rat))] = some 3 := by
    simp [lookupKey]
  rw [stopAsync_emits, h1, closeVisibleLoop_cons_some h2]
  simp only [closeVisibleLoop, Option.toList_none, List.nil_append,
    List.append_nil]
  rw [if_pos (by norm_num)]

/-- C5 (amended): sessions emitted by EndCurrentSession and by the
visibility tick carry all nine fields with the documented values
(durationSeconds is the truncation of the elapsed seconds, screenTime
is false for focused and true for visible sessions); sessions the
shutdown flush emits for visible apps carry only timestamp, appName,
windowTitle, durationSeconds and screenTime, the other four fields
being absent; and for nonnegative durations the integer cast is the
floor, hence truncation and not rounding. -/
theorem session_payload_fields (env : Env) (now utcNow : Rat)
    (st : FocusState) (curr : List String) (vs : VisibleState)
    (fs : FocusState) :
    (∀ s : Session, (endCurrentSession env now utcNow st).2 = some s →
      s.timestamp = utcNow ∧ s.localTimestamp = some now ∧
      s.machineName = some env.machineName ∧ s.userName = some env.userName ∧
      s.appName = st.currentProcessName ∧
      s.windowTitle = st.currentWindowTitle ∧
      s.durationSeconds = csharpIntCast (now - st.sessionStartTime) ∧
      s.executablePath = some (env.executablePathOf st.currentProcessName) ∧
      s.screenTime = false)
    ∧ (∀ s ∈ (trackVisibleWindows env now utcNow curr vs).2,
        s.timestamp = utcNow ∧ s.localTimestamp = some now ∧
        s.machineName = some env.machineName ∧ s.userName = some env.userName ∧
        s.executablePath = some (env.executablePathOf s.appName) ∧
        s.screenTime = true ∧
        ∃ t, (s.appName, t) ∈ vs.visibleAppStartTimes ∧
          s.durationSeconds = csharpIntCast (now - t))
    ∧ (∀ s ∈ (stopAsync env now utcNow fs vs).2.2, s.screenTime = true →
        s.localTimestamp = none ∧ s.machineName = none ∧ s.userName = none ∧
        s.executablePath = none ∧ s.timestamp = utcNow)
    ∧ (∀ q : Rat, 0 ≤ q →
        csharpIntCast q = ⌊q⌋ ∧ (⌊q⌋ : Rat) ≤ q ∧ q < ⌊q⌋ + 1) := by
  refine ⟨?_, ?_, ?_, ?_⟩
  · intro s hs
    rw [endCurrentSession_snd] at hs
    by_cases h : st.sessionStartTime ≠ dateTimeMinValue ∧
        1 ≤ now - st.sessionStartTime
    · rw [if_pos h, Option.some.injEq] at hs
      subst hs
      simp [focusedSession]
    · rw [if_neg h] at hs
      exact absurd hs (by simp)
  · intro s hs
    rw [trackVisibleWindows_snd] at hs
    obtain ⟨a, t, _, hm, _, hmk⟩ := closeVisibleLoop_shape _ _ _ _ _ s hs
    subst hmk
    refine ⟨rfl, rfl, rfl, rfl, rfl, rfl, t, ?_, rfl⟩
    simpa [visibleSession] using hm
  · intro s hs hst
    rw [stopAsync_emits, List.mem_append] at hs
    rcases hs with hs | hs
    · rw [endCurrentSession_snd] at hs
      by_cases h : fs.sessionStartTime ≠ dateTimeMinValue ∧
          1 ≤ now - fs.sessionStartTime
      · rw [if_pos h] at hs
        simp only [Option.toList_some, List.mem_singleton] at hs
        subst hs
        simp [focusedSession] at hst
      · rw [if_neg h] at hs
        simp at hs
    · obtain ⟨a, t, _, _, _, hmk⟩ := closeVisibleLoop_shape _ _ _ _ _ s hs
      subst hmk
      exact ⟨rfl, rfl, rfl, rfl, rfl⟩
  · intro q hq
    refine ⟨by simp [csharpIntCast, hq], Int.floor_le q, Int.lt_floor_add_one q⟩

/-- C5 witness: a focused session closed after seven seconds carries a
present localTimestamp field. -/
theorem session_payload_fields_witness :
    (focusedSession env0 10 10
      { currentProcessName := "notes", currentWindowTitle := "Doc",
        sessionStartTime := 3 } ((10 : Rat) - 3)).localTimestamp =
      some 10 :=
  ((session_payload_fields env0 10 10
    { currentProcessName := "notes", currentWindowTitle := "Doc",
      sessionStartTime := 3 } []
    { visibleAppStartTimes := [], currentlyVisibleApps := [] }
    initialFocusState).1
    (focusedSession env0 10 10
      { currentProcessName := "notes", currentWindowTitle := "Doc",
        sessionStartTime := 3 } ((10 : Rat) - 3))
    (by rw [endCurrentSession_snd,
          if_pos (by norm_num [dateTimeMinValue])])).2.1

/-- C8: SendToDashboard configures the ten-second timeout and makes a
single delivery attempt: its behaviour depends only on the outcome of
attempt zero (no retry), every thrown error and every non-success
response is turned into a log entry, and the caller always receives a
plain log list — the catch-all converts every error of the body, so no
exception propagates back to the sampling loop. -/
theorem dispatch_single_attempt_no_throw (attempts attempts2 : Nat → PostOutcome) :
    (attempts 0 = attempts2 0 →
      sendToDashboard attempts = sendToDashboard attempts2)
    ∧ (∀ msg, attempts 0 = PostOutcome.thrown msg →
        sendToDashboardBody attempts = Except.error msg ∧
        sendToDashboard attempts =
          ["Failed to send activity to dashboard: " ++ msg])
    ∧ (∀ ok code, attempts 0 = PostOutcome.response ok code →
        sendToDashboard attempts =
          if ok then [] else ["Dashboard rejected log: " ++ toString code])
    ∧ (∀ e, sendToDashboardBody attempts = Except.error e →
        sendToDashboard attempts =
          ["Failed to send activity to dashboard: " ++ e])
    ∧ httpTimeoutSeconds = 10 := by
  refine ⟨?_, ?_, ?_, ?_, rfl⟩
  · intro h
    simp [sendToDashboard, sendToDashboardBody, h]
  · intro msg h
    simp [sendToDashboard, sendToDashboardBody, h]
  · intro ok code h
    cases ok <;> simp [sendToDashboard, sendToDashboardBody, h]
  · intro e h
    simp [sendToDashboard, h]

/-- C8 witness: a thrown timeout is converted into a single error log
and no exception. -/
theorem dispatch_single_attempt_no_throw_witness :
    sendToDashboard (fun _ => PostOutcome.thrown ("timeout")) =
      ["Failed to send activity to dashboard: " ++ "timeout"] :=
  ((dispatch_single_attempt_no_throw
    (fun _ => PostOutcome.thrown ("timeout"))
    (fun _ => PostOutcome.thrown ("timeout"))).2.1 ("timeout") rfl).2
